import Mathlib

/-!
Shallow embedding of the traffic-light FSM repository.

The engine is translated from src/fsm/StateMachine.ts (mirrored by
public/js/main.js), the concrete timer states from
src/fsm/TrafficLightStates.ts, and the two-machine coordinator from the
IntersectionController source file.

Modelling conventions:
- JavaScript closures passed as lifecycle hooks and transition actions are
  embedded as a Callback value: a label that is appended to a call-order
  log when the closure is invoked, plus a flag saying whether the closure
  raises. A raised fault aborts the operation exactly where the source
  would propagate the exception, leaving all mutations performed so far in
  place.
- Guard closures are side-effect free predicates; a guard is embedded as
  an optional value of a parameter type with an evaluation function
  supplied by the caller, which is how a closure over an outer environment
  is represented in a pure setting. For the coordinator the guard values
  name the two cross-machine predicates and the evaluator reads the peer
  machine, exactly as canNSGoGreen and canEWGoGreen do.
- The JS Map of states is an insertion-ordered association list with
  lookup by name; currentState stores the name of the current state and is
  resolved through the registry, which is equivalent to the object
  reference because registered state objects are never replaced.
- Time deltas are naturals (milliseconds).
- Fields selected, triggerCalled and returned on OpResult are ghost
  observations used only to state theorems; they do not influence the
  machine state.
-/

namespace TrafficFSM

/-- A lifecycle or action closure: invoking it appends its label to the
call-order log; if throws is set the closure raises, and the raised fault
propagates out of the engine uncaught. -/
structure Callback where
  label : String
  throws : Bool
deriving DecidableEq

/-- The timer logic shared by RedLightState, GreenLightState and
YellowLightState in TrafficLightStates.ts: a private counter, a fixed
duration, and the event fired at the owning machine from onUpdate. -/
structure TimerBehavior where
  timer : Nat
  duration : Nat
  event : String
deriving DecidableEq

/-- The State interface of StateMachine.ts: a name plus optional onEnter
and onExit hooks; onUpdate is the timer behavior family used by the
repository (behavior = none models a state without onUpdate). -/
structure StateDef where
  name : String
  onEnter : Option Callback := none
  onExit : Option Callback := none
  behavior : Option TimerBehavior := none
deriving DecidableEq

/-- The Transition interface: source (the string star is the wildcard),
target, event, optional guard, optional action. -/
structure TransitionRule (g : Type) where
  src : String
  target : String
  event : String
  guard : Option g := none
  action : Option Callback := none
deriving DecidableEq

/-- The error taxonomy of the engine. hookFault carries the label of the
user callback whose exception propagated through the engine. -/
inductive Err where
  | duplicateState (name : String)
  | unknownState (name : String)
  | notStarted
  | alreadyStarted
  | hookFault (label : String)
deriving DecidableEq

/-- The StateMachine class: current state (none = not started), state
registry, transition table in insertion order, history log. -/
structure StateMachine (g : Type) where
  currentState : Option String := none
  states : List StateDef := []
  transitions : List (TransitionRule g) := []
  history : List String := []

/-- states.has(name) on the registry. -/
def hasState {g : Type} (m : StateMachine g) (n : String) : Bool :=
  m.states.any (fun s => s.name == n)

/-- states.get(name) on the registry. -/
def getState {g : Type} (m : StateMachine g) (n : String) : Option StateDef :=
  m.states.find? (fun s => s.name == n)

/-- addState: reject duplicates, otherwise register. -/
def addState {g : Type} (m : StateMachine g) (s : StateDef) :
    Except Err (StateMachine g) :=
  if hasState m s.name then .error (.duplicateState s.name)
  else .ok { m with states := m.states ++ [s] }

/-- addTransition: validate source (unless wildcard) then target, then
push onto the table. -/
def addTransition {g : Type} (m : StateMachine g) (t : TransitionRule g) :
    Except Err (StateMachine g) :=
  if t.src != "*" && !(hasState m t.src) then .error (.unknownState t.src)
  else if !(hasState m t.target) then .error (.unknownState t.target)
  else .ok { m with transitions := m.transitions ++ [t] }

/-- Result of a state-mutating engine call: the machine as left by the
call (mutations before a raised fault are kept, as in the source), the
call-order log of invoked callbacks, the propagated error if any, and
ghost observations for the theorems. -/
structure OpResult (g : Type) where
  machine : StateMachine g
  log : List String := []
  err : Option Err := none
  selected : Option (TransitionRule g) := none
  triggerCalled : Bool := false
  returned : Option Bool := none

/-- Whether an optional callback raises when invoked. -/
def cbThrows : Option Callback → Bool
  | none => false
  | some c => c.throws

/-- The log entries produced by invoking an optional callback. -/
def hookLabels : Option Callback → List String
  | none => []
  | some c => [c.label]

/-- The fault produced by invoking an optional callback: the exception a
throwing callback raises, propagated unchanged by the engine. -/
def hookErr : Option Callback → Option Err
  | none => none
  | some c => if c.throws then some (.hookFault c.label) else none

/-- Reset the private timer of the named state, as the onEnter of the
timer states does. States without a timer behavior are unaffected. -/
def resetTimer (ss : List StateDef) (n : String) : List StateDef :=
  ss.map (fun s =>
    if s.name == n then
      { s with behavior := s.behavior.map (fun b => { b with timer := 0 }) }
    else s)

/-- Overwrite the private timer of the named state, modelling the
in-place increment performed by onUpdate. -/
def setTimer (ss : List StateDef) (n : String) (t : Nat) : List StateDef :=
  ss.map (fun s =>
    if s.name == n then
      { s with behavior := s.behavior.map (fun b => { b with timer := t }) }
    else s)

/-- start(stateName): unknown state and already-started checks in source
order; on success set current state, push history, then run onEnter (its
fault propagates with the machine already mutated). -/
def start {g : Type} (m : StateMachine g) (stateName : String) : OpResult g :=
  match getState m stateName with
  | none => { machine := m, err := some (.unknownState stateName) }
  | some state =>
    if m.currentState.isSome then
      { machine := m, err := some .alreadyStarted }
    else
      let m1 : StateMachine g :=
        { m with currentState := some stateName,
                 history := m.history ++ [stateName],
                 states := resetTimer m.states stateName }
      { machine := m1, log := hookLabels state.onEnter,
        err := hookErr state.onEnter }

/-- The matching predicate of trigger and canTransition: source equals the
current state name or the wildcard, the event matches, and the guard is
absent or evaluates to true. -/
def matchesRule {g : Type} (evalG : g → Bool) (currentStateName : String)
    (event : String) (t : TransitionRule g) : Bool :=
  (t.src == currentStateName || t.src == "*") && t.event == event &&
    (match t.guard with
     | none => true
     | some gd => evalG gd)

/-- The onExit hook of the current state, when a current state exists and
declares one. -/
def exitHookOf {g : Type} (m : StateMachine g) : Option Callback :=
  match m.currentState.bind (getState m) with
  | some cur => cur.onExit
  | none => none

/-- transitionTo(stateName, action): fetch the target, run onExit of the
departing state, run the action, commit current state and history, run
onEnter of the new state. A fault in onExit or the action propagates with
the machine unchanged; a fault in onEnter propagates after the commit. -/
def transitionTo {g : Type} (m : StateMachine g) (stateName : String)
    (action : Option Callback) : OpResult g :=
  match getState m stateName with
  | none => { machine := m, err := some (.unknownState stateName) }
  | some newState =>
    if cbThrows (exitHookOf m) then
      { machine := m, log := hookLabels (exitHookOf m),
        err := hookErr (exitHookOf m) }
    else if cbThrows action then
      { machine := m, log := hookLabels (exitHookOf m) ++ hookLabels action,
        err := hookErr action }
    else
      let m1 : StateMachine g :=
        { m with currentState := some stateName,
                 history := m.history ++ [stateName],
                 states := resetTimer m.states stateName }
      { machine := m1,
        log := hookLabels (exitHookOf m) ++ hookLabels action ++
          hookLabels newState.onEnter,
        err := hookErr newState.onEnter }

/-- trigger(event): not-started check, then scan the table with find for
the first rule satisfying the matching predicate; no match returns false,
a match executes transitionTo and returns true. -/
def trigger {g : Type} (evalG : g → Bool) (m : StateMachine g)
    (event : String) : OpResult g :=
  match m.currentState with
  | none => { machine := m, err := some .notStarted }
  | some currentStateName =>
    match m.transitions.find? (matchesRule evalG currentStateName event) with
    | none => { machine := m, returned := some false }
    | some t =>
      let r := transitionTo m t.target t.action
      { r with selected := some t,
               returned := if r.err.isSome then none else some true }

/-- update(deltaTime): not-started check, then run the timer behavior of
the current state if present: increment the counter by deltaTime and, if
it reaches or exceeds the duration, call trigger with the behavior event
on the machine. -/
def update {g : Type} (evalG : g → Bool) (m : StateMachine g)
    (deltaTime : Nat) : OpResult g :=
  match m.currentState with
  | none => { machine := m, err := some .notStarted }
  | some currentStateName =>
    match getState m currentStateName with
    | none => { machine := m }
    | some s =>
      match s.behavior with
      | none => { machine := m }
      | some b =>
        let t1 := b.timer + deltaTime
        let m1 : StateMachine g :=
          { m with states := setTimer m.states currentStateName t1 }
        if b.duration ≤ t1 then
          let r := trigger evalG m1 b.event
          { r with triggerCalled := true }
        else
          { machine := m1 }

/-- getCurrentState(): the current state name or NotStartedError. -/
def getCurrentState {g : Type} (m : StateMachine g) : Except Err String :=
  match m.currentState with
  | none => .error .notStarted
  | some n => .ok n

/-- getHistory(): the ordered state-name sequence (the aliasing aspect of
the returned copy is modelled separately on a small heap). -/
def getHistory {g : Type} (m : StateMachine g) : List String :=
  m.history

/-- canTransition(event): false when not started, otherwise whether a rule
matches under the same predicate as trigger. -/
def canTransition {g : Type} (evalG : g → Bool) (m : StateMachine g)
    (event : String) : Bool :=
  match m.currentState with
  | none => false
  | some currentStateName =>
    (m.transitions.find? (matchesRule evalG currentStateName event)).isSome

/-- addState with the raised error caught at the call site: the machine is
kept unchanged on failure. -/
def addStateD {g : Type} (m : StateMachine g) (s : StateDef) :
    StateMachine g :=
  match addState m s with
  | .ok m1 => m1
  | .error _ => m

/-- addTransition with the raised error caught at the call site: the
machine is kept unchanged on failure. -/
def addTransitionD {g : Type} (m : StateMachine g) (t : TransitionRule g) :
    StateMachine g :=
  match addTransition m t with
  | .ok m1 => m1
  | .error _ => m

/-- The public operations of one machine, used to reason about arbitrary
operation sequences issued by a caller. -/
inductive Op (g : Type) where
  | addState (s : StateDef)
  | addTransition (t : TransitionRule g)
  | start (n : String)
  | trigger (e : String)
  | update (d : Nat)
  | canTransition (e : String)
  | getCurrentState
  | getHistory

/-- The machine left behind by one public operation (raised errors reach
the caller; the machine is as the call left it). -/
def applyOp {g : Type} (evalG : g → Bool) (m : StateMachine g) :
    Op g → StateMachine g
  | .addState s => addStateD m s
  | .addTransition t => addTransitionD m t
  | .start n => (start m n).machine
  | .trigger e => (trigger evalG m e).machine
  | .update d => (update evalG m d).machine
  | .canTransition _ => m
  | .getCurrentState => m
  | .getHistory => m

/-- Run a sequence of public operations. -/
def runOps {g : Type} (evalG : g → Bool) (m : StateMachine g)
    (ops : List (Op g)) : StateMachine g :=
  ops.foldl (applyOp evalG) m

/-- Spec-side description of one trigger call, following the spec words:
the name of the successfully transitioned-to state, when the scan finds a
matching rule and the transition commits (the target resolves and neither
the exit hook nor the action raises); otherwise nothing. -/
def triggerAppend {g : Type} (evalG : g → Bool) (m : StateMachine g)
    (e : String) : List String :=
  match m.currentState with
  | none => []
  | some c =>
    match m.transitions.find? (matchesRule evalG c e) with
    | none => []
    | some t =>
      if (getState m t.target).isSome && !(cbThrows (exitHookOf m)) &&
          !(cbThrows t.action) then [t.target]
      else []

/-- Spec-side description of the state names one public operation appends
to the visited sequence: the initial state for a successful start, the
successfully transitioned-to state for a committing trigger (also when
reached from update through a timer expiry), nothing otherwise. -/
def visitedAppend {g : Type} (evalG : g → Bool) (m : StateMachine g) :
    Op g → List String
  | .start n =>
    if (getState m n).isSome && m.currentState.isNone then [n] else []
  | .trigger e => triggerAppend evalG m e
  | .update d =>
    match m.currentState with
    | none => []
    | some c =>
      match getState m c with
      | none => []
      | some s =>
        match s.behavior with
        | none => []
        | some b =>
          if b.duration ≤ b.timer + d then
            triggerAppend evalG
              { m with states := setTimer m.states c (b.timer + d) } b.event
          else []
  | _ => []

/-- Spec-side visited-state sequence of a whole operation sequence. -/
def specVisited {g : Type} (evalG : g → Bool) (m : StateMachine g) :
    List (Op g) → List String
  | [] => []
  | op :: ops =>
    visitedAppend evalG m op ++ specVisited evalG (applyOp evalG m op) ops

/-- A tiny heap of string arrays: a JS array reference is an index into
cells. Used to model the aliasing behavior of getHistory. -/
structure Heap where
  cells : List (List String)

/-- Dereference an array. -/
def Heap.read (h : Heap) (r : Nat) : List String :=
  (h.cells.get? r).getD []

/-- Overwrite the array behind a reference (a caller mutating an array it
holds). -/
def Heap.write (h : Heap) (r : Nat) (v : List String) : Heap :=
  { cells := h.cells.set r v }

/-- Allocate a fresh array and return its reference. -/
def Heap.alloc (h : Heap) (v : List String) : Heap × Nat :=
  ({ cells := h.cells ++ [v] }, h.cells.length)

/-- getHistory under the heap model: the machine history lives in cell
mref; the spread copy allocates a fresh array holding the same contents
and returns the fresh reference. -/
def getHistoryRef (h : Heap) (mref : Nat) : Heap × Nat :=
  h.alloc (h.read mref)

/-- RedLightState: 30000 ms duration, fires TIMER_EXPIRED from onUpdate;
onEnter resets the timer and logs, onExit logs (from BaseState). -/
def RedLightState : StateDef :=
  { name := "RED",
    onEnter := some { label := "Entered RED", throws := false },
    onExit := some { label := "Exited RED", throws := false },
    behavior := some { timer := 0, duration := 30000, event := "TIMER_EXPIRED" } }

/-- GreenLightState: 25000 ms duration, fires TIMER_EXPIRED. -/
def GreenLightState : StateDef :=
  { name := "GREEN",
    onEnter := some { label := "Entered GREEN", throws := false },
    onExit := some { label := "Exited GREEN", throws := false },
    behavior := some { timer := 0, duration := 25000, event := "TIMER_EXPIRED" } }

/-- YellowLightState: 5000 ms duration, fires TIMER_EXPIRED. -/
def YellowLightState : StateDef :=
  { name := "YELLOW",
    onEnter := some { label := "Entered YELLOW", throws := false },
    onExit := some { label := "Exited YELLOW", throws := false },
    behavior := some { timer := 0, duration := 5000, event := "TIMER_EXPIRED" } }

/-- The two cross-machine guard closures used by the
IntersectionController. -/
inductive ICGuard where
  | nsCanGoGreen
  | ewCanGoGreen
deriving DecidableEq

/-- Body shared by canNSGoGreen and canEWGoGreen: query the peer machine
current state and compare with RED; a NotStartedError from the query is
caught and treated as permissive. -/
def stateIsRedOrUnstarted (m : StateMachine ICGuard) : Bool :=
  match getCurrentState m with
  | .error _ => true
  | .ok n => n == "RED"

/-- Evaluate an IntersectionController guard closure against the two
machines owned by the controller at the moment the guard runs. -/
def icEval (ns ew : StateMachine ICGuard) : ICGuard → Bool
  | .nsCanGoGreen => stateIsRedOrUnstarted ew
  | .ewCanGoGreen => stateIsRedOrUnstarted ns

/-- The transition table installed on one axis machine of the controller
(the NS and EW arrays of the source differ only in the guard closure and
the text of their console actions). The YELLOW to RED action additionally
schedules a delayed TIMER_EXPIRED on the peer machine via setTimeout; that
scheduling is interpreted by the controller step functions. -/
def axisBase (gd : ICGuard) (axis : String) : List (TransitionRule ICGuard) :=
  [ { src := "RED", target := "GREEN", event := "TIMER_EXPIRED",
      guard := some gd,
      action := some { label := axis ++ " RED to GREEN", throws := false } },
    { src := "GREEN", target := "YELLOW", event := "TIMER_EXPIRED",
      guard := none,
      action := some { label := axis ++ " GREEN to YELLOW", throws := false } },
    { src := "YELLOW", target := "RED", event := "TIMER_EXPIRED",
      guard := none,
      action := some { label := axis ++ " YELLOW to RED", throws := false } },
    { src := "*", target := "RED", event := "EMERGENCY_OVERRIDE",
      guard := none, action := none } ]

/-- North-south transition table of the controller. -/
def nsTableIC : List (TransitionRule ICGuard) := axisBase .nsCanGoGreen "NS"

/-- East-west transition table of the controller. -/
def ewTableIC : List (TransitionRule ICGuard) := axisBase .ewCanGoGreen "EW"

/-- The wildcard FORCE_GREEN rule appended by addEmergencyTransitions. -/
def axisForce (axis : String) : TransitionRule ICGuard :=
  { src := "*", target := "GREEN", event := "FORCE_GREEN", guard := none,
    action := some { label := axis ++ " Emergency GREEN activated",
                     throws := false } }

/-- FORCE_GREEN rule for the north-south machine. -/
def nsForceIC : TransitionRule ICGuard := axisForce "NS"

/-- FORCE_GREEN rule for the east-west machine. -/
def ewForceIC : TransitionRule ICGuard := axisForce "EW"

/-- setupTrafficLights for one axis: register the RED, GREEN and YELLOW
state objects and install the axis transition table. -/
def icSetupMachine (table : List (TransitionRule ICGuard)) :
    StateMachine ICGuard :=
  table.foldl addTransitionD
    (addStateD (addStateD (addStateD ({} : StateMachine ICGuard)
      RedLightState) GreenLightState) YellowLightState)

/-- The IntersectionController: two machines, pedestrian request flags,
the running flag, and the multiset of setTimeout callbacks scheduled by
the YELLOW to RED actions that have not fired yet (pendingNS counts
callbacks that will trigger TIMER_EXPIRED on the north-south machine). -/
structure IntersectionController where
  northSouth : StateMachine ICGuard
  eastWest : StateMachine ICGuard
  pedestrianWaitingNS : Bool
  pedestrianWaitingEW : Bool
  isRunning : Bool
  pendingNS : Nat
  pendingEW : Nat

/-- The controller as built by its constructor. -/
def icNew : IntersectionController :=
  { northSouth := icSetupMachine nsTableIC,
    eastWest := icSetupMachine ewTableIC,
    pedestrianWaitingNS := false, pedestrianWaitingEW := false,
    isRunning := false, pendingNS := 0, pendingEW := 0 }

/-- Controller start: NS starts GREEN, EW starts RED. -/
def icStart (c : IntersectionController) : IntersectionController :=
  if c.isRunning then c
  else { c with northSouth := (start c.northSouth "GREEN").machine,
                eastWest := (start c.eastWest "RED").machine,
                isRunning := true }

/-- True when the rule a trigger committed is the YELLOW to RED rule,
whose action schedules a delayed TIMER_EXPIRED on the peer machine. -/
def schedulesPeer {g : Type} (r : OpResult g) : Bool :=
  match r.selected with
  | some t =>
    t.src == "YELLOW" && t.target == "RED" && t.event == "TIMER_EXPIRED" &&
      r.err.isNone
  | none => false

/-- Whether a machine currently reports RED (used by
handlePedestrianRequests, with the NotStartedError caught). -/
def icIsRed (m : StateMachine ICGuard) : Bool :=
  match getCurrentState m with
  | .ok n => n == "RED"
  | .error _ => false

/-- One controller update tick: update NS then EW (each guard reads the
peer as it is at that moment), then serve pedestrian requests for an axis
whose machine shows RED. -/
def icUpdate (c : IntersectionController) (d : Nat) : IntersectionController :=
  if !c.isRunning then c
  else
    let r1 := update (icEval c.northSouth c.eastWest) c.northSouth d
    let ns1 := r1.machine
    let pEW := c.pendingEW + (if schedulesPeer r1 then 1 else 0)
    let r2 := update (icEval ns1 c.eastWest) c.eastWest d
    let ew1 := r2.machine
    let pNS := c.pendingNS + (if schedulesPeer r2 then 1 else 0)
    let pedNS := c.pedestrianWaitingNS && !(icIsRed ns1)
    let pedEW := c.pedestrianWaitingEW && !(icIsRed ew1)
    { c with northSouth := ns1, eastWest := ew1,
             pendingNS := pNS, pendingEW := pEW,
             pedestrianWaitingNS := pedNS, pedestrianWaitingEW := pedEW }

/-- The two crossing directions. -/
inductive ICDir where
  | NS
  | EW
deriving DecidableEq

/-- pedestrianButtonPressed: record the request while running. -/
def icPedestrianButtonPressed (c : IntersectionController) (dir : ICDir) :
    IntersectionController :=
  if !c.isRunning then c
  else match dir with
  | .NS => { c with pedestrianWaitingNS := true }
  | .EW => { c with pedestrianWaitingEW := true }

/-- emergencyVehicle: force the named axis to GREEN and the other to RED
via EMERGENCY_OVERRIDE and FORCE_GREEN, then append the FORCE_GREEN rules
(addEmergencyTransitions, whose raised errors are caught). -/
def icEmergencyVehicle (c : IntersectionController) (dir : ICDir) :
    IntersectionController :=
  if !c.isRunning then c
  else match dir with
  | .NS =>
    let r1 := trigger (icEval c.northSouth c.eastWest) c.northSouth
      "EMERGENCY_OVERRIDE"
    let ns1 := r1.machine
    let pEW1 := c.pendingEW + (if schedulesPeer r1 then 1 else 0)
    let r2 := trigger (icEval ns1 c.eastWest) ns1 "FORCE_GREEN"
    let ns2 := r2.machine
    let pEW2 := pEW1 + (if schedulesPeer r2 then 1 else 0)
    let r3 := trigger (icEval ns2 c.eastWest) c.eastWest "EMERGENCY_OVERRIDE"
    let ew1 := r3.machine
    let pNS1 := c.pendingNS + (if schedulesPeer r3 then 1 else 0)
    { c with northSouth := addTransitionD ns2 nsForceIC,
             eastWest := addTransitionD ew1 ewForceIC,
             pendingNS := pNS1, pendingEW := pEW2 }
  | .EW =>
    let r1 := trigger (icEval c.northSouth c.eastWest) c.eastWest
      "EMERGENCY_OVERRIDE"
    let ew1 := r1.machine
    let pNS1 := c.pendingNS + (if schedulesPeer r1 then 1 else 0)
    let r2 := trigger (icEval c.northSouth ew1) ew1 "FORCE_GREEN"
    let ew2 := r2.machine
    let pNS2 := pNS1 + (if schedulesPeer r2 then 1 else 0)
    let r3 := trigger (icEval c.northSouth ew2) c.northSouth
      "EMERGENCY_OVERRIDE"
    let ns1 := r3.machine
    let pEW1 := c.pendingEW + (if schedulesPeer r3 then 1 else 0)
    { c with northSouth := addTransitionD ns1 nsForceIC,
             eastWest := addTransitionD ew2 ewForceIC,
             pendingNS := pNS2, pendingEW := pEW1 }

/-- One scheduled setTimeout callback firing: it triggers TIMER_EXPIRED on
the north-south machine when the controller is still running. -/
def icFirePendingNS (c : IntersectionController) : IntersectionController :=
  match c.pendingNS with
  | 0 => c
  | k + 1 =>
    let c1 := { c with pendingNS := k }
    if !c1.isRunning then c1
    else
      let r := trigger (icEval c1.northSouth c1.eastWest) c1.northSouth
        "TIMER_EXPIRED"
      { c1 with northSouth := r.machine,
                pendingEW := c1.pendingEW + (if schedulesPeer r then 1 else 0) }

/-- One scheduled setTimeout callback firing: it triggers TIMER_EXPIRED on
the east-west machine when the controller is still running. -/
def icFirePendingEW (c : IntersectionController) : IntersectionController :=
  match c.pendingEW with
  | 0 => c
  | k + 1 =>
    let c1 := { c with pendingEW := k }
    if !c1.isRunning then c1
    else
      let r := trigger (icEval c1.northSouth c1.eastWest) c1.eastWest
        "TIMER_EXPIRED"
      { c1 with eastWest := r.machine,
                pendingNS := c1.pendingNS + (if schedulesPeer r then 1 else 0) }

/-- External events the running controller is driven by: update ticks,
pedestrian requests, emergency vehicles, and the firing of previously
scheduled delayed cross-machine triggers. -/
inductive ICOp where
  | update (d : Nat)
  | pedestrianButtonPressed (dir : ICDir)
  | emergencyVehicle (dir : ICDir)
  | firePendingNS
  | firePendingEW

/-- Apply one controller event. -/
def icStep (c : IntersectionController) : ICOp → IntersectionController
  | .update d => icUpdate c d
  | .pedestrianButtonPressed dir => icPedestrianButtonPressed c dir
  | .emergencyVehicle dir => icEmergencyVehicle c dir
  | .firePendingNS => icFirePendingNS c
  | .firePendingEW => icFirePendingEW c

/-- Run a sequence of controller events. -/
def icRun (c : IntersectionController) (ops : List ICOp) :
    IntersectionController :=
  ops.foldl icStep c

/-- The private timer currently stored for a named state. -/
def timerOf {g : Type} (m : StateMachine g) (n : String) : Option Nat :=
  match getState m n with
  | none => none
  | some s => s.behavior.map (fun b => b.timer)

/-- Machine-core invariant relating the current state and the history. -/
def histInv {g : Type} (m : StateMachine g) : Prop :=
  ((∃ n, getCurrentState m = .ok n) ↔ getHistory m ≠ []) ∧
  (∀ n, getCurrentState m = .ok n → (getHistory m).getLast? = some n)

/-- A machine whose table registers, for the same event, an exact rule
with a failing guard before a wildcard rule without a guard. -/
def mC3 : StateMachine Bool :=
  runOps id {} [
    .addState { name := "A" }, .addState { name := "B" },
    .addState { name := "S" },
    .addTransition { src := "A", target := "B", event := "GO",
                     guard := some false },
    .addTransition { src := "*", target := "S", event := "GO" },
    .start "A" ]

/-- The wildcard rule of mC3. -/
def mC3Wildcard : TransitionRule Bool :=
  { src := "*", target := "S", event := "GO" }

/-- A machine holding only the red timer state with no transition for
TIMER_EXPIRED, so triggering from onUpdate never changes state. -/
def mC5 : StateMachine Bool :=
  runOps id {} [ .addState RedLightState, .start "RED" ]

/-- A small started two-state machine with hooks and an action, used to
instantiate the general theorems on concrete inputs. -/
def mW : StateMachine Bool :=
  { currentState := some "A",
    states := [
      { name := "A",
        onEnter := some { label := "enterA", throws := false },
        onExit := some { label := "exitA", throws := false } },
      { name := "B",
        onEnter := some { label := "enterB", throws := false } } ],
    transitions := [
      { src := "A", target := "B", event := "GO",
        action := some { label := "actAB", throws := false } } ],
    history := ["A"] }

/-- The single transition rule of mW. -/
def mWrule : TransitionRule Bool :=
  { src := "A", target := "B", event := "GO",
    action := some { label := "actAB", throws := false } }

/-- The target state of the transition of mW. -/
def mWstateB : StateDef :=
  { name := "B", onEnter := some { label := "enterB", throws := false } }

/-- An unstarted machine holding one state whose onEnter raises. -/
def mWthrow : StateMachine Bool :=
  { states := [
      { name := "A", onEnter := some { label := "boom", throws := true } } ] }

/-- A RED light state whose private timer currently holds t. -/
def redT (t : Nat) : StateDef :=
  { RedLightState with
    behavior := some { timer := t, duration := 30000, event := "TIMER_EXPIRED" } }

/-- A GREEN light state whose private timer currently holds t. -/
def greenT (t : Nat) : StateDef :=
  { GreenLightState with
    behavior := some { timer := t, duration := 25000, event := "TIMER_EXPIRED" } }

/-- A YELLOW light state whose private timer currently holds t. -/
def yellowT (t : Nat) : StateDef :=
  { YellowLightState with
    behavior := some { timer := t, duration := 5000, event := "TIMER_EXPIRED" } }

/-- Shape of an axis machine of the controller at any reachable point: the
three light states with some timer values, the axis table followed by the
FORCE_GREEN rules appended so far, and a started current state that is one
of the three lights. -/
def MachineShape (m : StateMachine ICGuard) (gd : ICGuard) (axis : String) :
    Prop :=
  (∃ tR tG tY, m.states = [redT tR, greenT tG, yellowT tY]) ∧
  (∃ k, m.transitions = axisBase gd axis ++ List.replicate k (axisForce axis)) ∧
  (m.currentState = some "RED" ∨ m.currentState = some "GREEN" ∨
    m.currentState = some "YELLOW")

/-- Controller invariant: both machines shaped and started, the controller
running, and never both lights green. -/
def ICInv (c : IntersectionController) : Prop :=
  MachineShape c.northSouth .nsCanGoGreen "NS" ∧
  MachineShape c.eastWest .ewCanGoGreen "EW" ∧
  c.isRunning = true ∧
  ¬(c.northSouth.currentState = some "GREEN" ∧
    c.eastWest.currentState = some "GREEN")

/-! ## Lemmas about the engine -/

theorem hookErr_eq_none {cb : Option Callback} (h : cbThrows cb = false) :
    hookErr cb = none := by
  cases cb with
  | none => rfl
  | some c =>
    simp only [cbThrows] at h
    simp [hookErr, h]

theorem getCurrentState_ok_iff {g : Type} (m : StateMachine g) (n : String) :
    getCurrentState m = .ok n ↔ m.currentState = some n := by
  cases h : m.currentState <;> simp [getCurrentState, h]

theorem transitionTo_commit {g : Type} {m : StateMachine g} {tn : String}
    {ac : Option Callback} {s : StateDef}
    (hget : getState m tn = some s)
    (hex : cbThrows (exitHookOf m) = false)
    (hac : cbThrows ac = false) :
    transitionTo m tn ac =
      { machine := { m with currentState := some tn,
                            history := m.history ++ [tn],
                            states := resetTimer m.states tn },
        log := hookLabels (exitHookOf m) ++ hookLabels ac ++
          hookLabels s.onEnter,
        err := hookErr s.onEnter } := by
  simp [transitionTo, hget, hex, hac]

theorem transitionTo_machine_cases {g : Type} (m : StateMachine g)
    (tn : String) (ac : Option Callback) :
    (transitionTo m tn ac).machine = m ∨
    (transitionTo m tn ac).machine =
      { m with currentState := some tn,
               history := m.history ++ [tn],
               states := resetTimer m.states tn } := by
  cases hget : getState m tn with
  | none => simp [transitionTo, hget]
  | some s =>
    cases h1 : cbThrows (exitHookOf m) with
    | true => simp [transitionTo, hget, h1]
    | false =>
      cases h2 : cbThrows ac with
      | true => simp [transitionTo, hget, h1, h2]
      | false => simp [transitionTo, hget, h1, h2]

theorem trigger_machine_cases {g : Type} (evalG : g → Bool)
    (m : StateMachine g) (e : String) :
    (trigger evalG m e).machine = m ∨
    ∃ tn, (trigger evalG m e).machine =
      { m with currentState := some tn,
               history := m.history ++ [tn],
               states := resetTimer m.states tn } := by
  cases hc : m.currentState with
  | none => simp [trigger, hc]
  | some cn =>
    cases hf : m.transitions.find? (matchesRule evalG cn e) with
    | none => simp [trigger, hc, hf]
    | some t =>
      rcases transitionTo_machine_cases m t.target t.action with h | h
      · exact Or.inl (by simp [trigger, hc, hf, h])
      · exact Or.inr ⟨t.target, by simp [trigger, hc, hf, h]⟩

theorem start_machine_cases {g : Type} (m : StateMachine g) (n : String) :
    (start m n).machine = m ∨
    ((∃ s, getState m n = some s) ∧ m.currentState = none ∧
      (start m n).machine =
        { m with currentState := some n,
                 history := m.history ++ [n],
                 states := resetTimer m.states n }) := by
  cases hget : getState m n with
  | none => simp [start, hget]
  | some s =>
    cases hc : m.currentState with
    | some cn => simp [start, hget, hc]
    | none => exact Or.inr ⟨⟨s, rfl⟩, rfl, by simp [start, hget, hc]⟩

theorem update_machine_cases {g : Type} (evalG : g → Bool)
    (m : StateMachine g) (d : Nat) :
    (update evalG m d).machine = m ∨
    (∃ cn t1, m.currentState = some cn ∧
      (update evalG m d).machine =
        { m with states := setTimer m.states cn t1 }) ∨
    (∃ cn t1 e, m.currentState = some cn ∧
      (update evalG m d).machine =
        (trigger evalG { m with states := setTimer m.states cn t1 } e).machine) := by
  cases hc : m.currentState with
  | none => simp [update, hc]
  | some cn =>
    cases hs : getState m cn with
    | none => simp [update, hc, hs]
    | some s =>
      cases hb : s.behavior with
      | none => simp [update, hc, hs, hb]
      | some b =>
        by_cases hd : b.duration ≤ b.timer + d
        · refine Or.inr (Or.inr ⟨cn, b.timer + d, b.event, rfl, ?_⟩)
          simp [update, hc, hs, hb, hd]
        · refine Or.inr (Or.inl ⟨cn, b.timer + d, rfl, ?_⟩)
          simp [update, hc, hs, hb, hd]

theorem addStateD_preserves {g : Type} (m : StateMachine g) (s : StateDef) :
    (addStateD m s).currentState = m.currentState ∧
    (addStateD m s).history = m.history ∧
    (addStateD m s).transitions = m.transitions := by
  by_cases hc : hasState m s.name <;> simp [addStateD, addState, hc]

theorem addTransitionD_preserves {g : Type} (m : StateMachine g)
    (t : TransitionRule g) :
    (addTransitionD m t).currentState = m.currentState ∧
    (addTransitionD m t).history = m.history ∧
    (addTransitionD m t).states = m.states := by
  by_cases h1 : (t.src != "*" && !(hasState m t.src)) = true
  · simp [addTransitionD, addTransition, h1]
  · by_cases h2 : (!(hasState m t.target)) = true <;>
      simp [addTransitionD, addTransition, h1, h2]

theorem trigger_history {g : Type} (evalG : g → Bool) (m : StateMachine g)
    (e : String) :
    (trigger evalG m e).machine.history =
      m.history ++ triggerAppend evalG m e := by
  cases hc : m.currentState with
  | none => simp [trigger, triggerAppend, hc]
  | some cn =>
    cases hf : m.transitions.find? (matchesRule evalG cn e) with
    | none => simp [trigger, triggerAppend, hc, hf]
    | some t =>
      cases hget : getState m t.target with
      | none => simp [trigger, triggerAppend, transitionTo, hc, hf, hget]
      | some s =>
        cases h1 : cbThrows (exitHookOf m) with
        | true =>
          simp [trigger, triggerAppend, transitionTo, hc, hf, hget, h1]
        | false =>
          cases h2 : cbThrows t.action with
          | true =>
            simp [trigger, triggerAppend, transitionTo, hc, hf, hget, h1, h2]
          | false =>
            simp [trigger, triggerAppend, transitionTo, hc, hf, hget, h1, h2]

theorem start_history {g : Type} (evalG : g → Bool) (m : StateMachine g)
    (n : String) :
    (start m n).machine.history =
      m.history ++ visitedAppend evalG m (.start n) := by
  cases hget : getState m n with
  | none => simp [start, visitedAppend, hget]
  | some s =>
    cases hc : m.currentState with
    | some cn => simp [start, visitedAppend, hget, hc]
    | none => simp [start, visitedAppend, hget, hc]

theorem update_history {g : Type} (evalG : g → Bool) (m : StateMachine g)
    (d : Nat) :
    (update evalG m d).machine.history =
      m.history ++ visitedAppend evalG m (.update d) := by
  cases hc : m.currentState with
  | none => simp [update, visitedAppend, hc]
  | some cn =>
    cases hs : getState m cn with
    | none => simp [update, visitedAppend, hc, hs]
    | some s =>
      cases hb : s.behavior with
      | none => simp [update, visitedAppend, hc, hs, hb]
      | some b =>
        by_cases hd : b.duration ≤ b.timer + d
        · have h := trigger_history evalG
            { m with states := setTimer m.states cn (b.timer + d) } b.event
          simp only [update, visitedAppend, hc, hs, hb, hd, if_pos] at h ⊢
          simpa using h
        · simp [update, visitedAppend, hc, hs, hb, hd]

theorem applyOp_history {g : Type} (evalG : g → Bool) (m : StateMachine g)
    (op : Op g) :
    (applyOp evalG m op).history = m.history ++ visitedAppend evalG m op := by
  cases op with
  | addState s => simp [applyOp, visitedAppend, (addStateD_preserves m s).2.1]
  | addTransition t =>
    simp [applyOp, visitedAppend, (addTransitionD_preserves m t).2.1]
  | start n => exact start_history evalG m n
  | trigger e => simpa [applyOp, visitedAppend] using trigger_history evalG m e
  | update d => exact update_history evalG m d
  | canTransition e => simp [applyOp, visitedAppend]
  | getCurrentState => simp [applyOp, visitedAppend]
  | getHistory => simp [applyOp, visitedAppend]

theorem runOps_history {g : Type} (evalG : g → Bool) (ops : List (Op g)) :
    ∀ m : StateMachine g,
      (runOps evalG m ops).history = m.history ++ specVisited evalG m ops := by
  induction ops with
  | nil => intro m; simp [runOps, specVisited]
  | cons op ops ih =>
    intro m
    have h1 : runOps evalG m (op :: ops) =
        runOps evalG (applyOp evalG m op) ops := rfl
    rw [h1, ih, applyOp_history, specVisited, List.append_assoc]

theorem trigger_core {g : Type} (evalG : g → Bool) (m : StateMachine g)
    (e : String)
    (h1 : m.currentState = none → m.history = [])
    (h2 : ∀ n, m.currentState = some n → m.history.getLast? = some n) :
    ((trigger evalG m e).machine.currentState = none →
      (trigger evalG m e).machine.history = []) ∧
    (∀ n, (trigger evalG m e).machine.currentState = some n →
      (trigger evalG m e).machine.history.getLast? = some n) := by
  rcases trigger_machine_cases evalG m e with h | ⟨tn, h⟩
  · rw [h]; exact ⟨h1, h2⟩
  · rw [h]
    refine ⟨by intro hn; simp at hn, ?_⟩
    intro n hn
    simp only at hn
    rw [Option.some_inj] at hn
    subst hn
    simp

theorem update_core {g : Type} (evalG : g → Bool) (m : StateMachine g)
    (d : Nat)
    (h1 : m.currentState = none → m.history = [])
    (h2 : ∀ n, m.currentState = some n → m.history.getLast? = some n) :
    ((update evalG m d).machine.currentState = none →
      (update evalG m d).machine.history = []) ∧
    (∀ n, (update evalG m d).machine.currentState = some n →
      (update evalG m d).machine.history.getLast? = some n) := by
  rcases update_machine_cases evalG m d with h | ⟨cn, t1, hcn, h⟩ |
    ⟨cn, t1, e, hcn, h⟩
  · rw [h]; exact ⟨h1, h2⟩
  · rw [h]; exact ⟨h1, h2⟩
  · rw [h]
    exact trigger_core evalG _ e h1 h2

theorem applyOp_core {g : Type} (evalG : g → Bool) (m : StateMachine g)
    (op : Op g)
    (h1 : m.currentState = none → m.history = [])
    (h2 : ∀ n, m.currentState = some n → m.history.getLast? = some n) :
    ((applyOp evalG m op).currentState = none →
      (applyOp evalG m op).history = []) ∧
    (∀ n, (applyOp evalG m op).currentState = some n →
      (applyOp evalG m op).history.getLast? = some n) := by
  cases op with
  | addState s =>
    have hp := addStateD_preserves m s
    simp only [applyOp, hp.1, hp.2.1]
    exact ⟨h1, h2⟩
  | addTransition t =>
    have hp := addTransitionD_preserves m t
    simp only [applyOp, hp.1, hp.2.1]
    exact ⟨h1, h2⟩
  | start n =>
    rcases start_machine_cases m n with h | ⟨_, _, h⟩
    · simp only [applyOp, h]; exact ⟨h1, h2⟩
    · simp only [applyOp, h]
      refine ⟨by intro hn; simp at hn, ?_⟩
      intro n2 hn
      have hn2 : n = n2 := Option.some_inj.mp hn
      subst hn2
      simp
  | trigger e => exact trigger_core evalG m e h1 h2
  | update d => exact update_core evalG m d h1 h2
  | canTransition e => exact ⟨h1, h2⟩
  | getCurrentState => exact ⟨h1, h2⟩
  | getHistory => exact ⟨h1, h2⟩

theorem runOps_core {g : Type} (evalG : g → Bool) (ops : List (Op g)) :
    ∀ m : StateMachine g,
      (m.currentState = none → m.history = []) →
      (∀ n, m.currentState = some n → m.history.getLast? = some n) →
      ((runOps evalG m ops).currentState = none →
        (runOps evalG m ops).history = []) ∧
      (∀ n, (runOps evalG m ops).currentState = some n →
        (runOps evalG m ops).history.getLast? = some n) := by
  induction ops with
  | nil => intro m h1 h2; exact ⟨h1, h2⟩
  | cons op ops ih =>
    intro m h1 h2
    have hstep := applyOp_core evalG m op h1 h2
    exact ih (applyOp evalG m op) hstep.1 hstep.2

theorem hookErr_eq_none_iff (cb : Option Callback) :
    hookErr cb = none ↔ cbThrows cb = false := by
  cases cb with
  | none => simp [hookErr, cbThrows]
  | some c => cases hc : c.throws <;> simp [hookErr, cbThrows, hc]

theorem find?_resetTimer (ss : List StateDef) (n : String) :
    (resetTimer ss n).find? (fun s => s.name == n) =
      (ss.find? (fun s => s.name == n)).map
        (fun s => { s with
          behavior := s.behavior.map (fun b => { b with timer := 0 }) }) := by
  induction ss with
  | nil => rfl
  | cons a ss ih =>
    cases ha : (a.name == n) with
    | true =>
      have haeq : a.name = n := by simpa using ha
      simp [resetTimer, List.find?_cons, ha, haeq]
    | false =>
      simp only [resetTimer, List.map_cons, List.find?_cons, ha] at ih ⊢
      simpa [ha] using ih

theorem trigger_selected_eq {g : Type} (evalG : g → Bool)
    (m : StateMachine g) (e cn : String)
    (hcur : m.currentState = some cn) :
    (trigger evalG m e).selected =
      m.transitions.find? (matchesRule evalG cn e) := by
  cases hf : m.transitions.find? (matchesRule evalG cn e) with
  | none => simp [trigger, hcur, hf]
  | some t => simp [trigger, hcur, hf]

theorem trigger_commit_machine {g : Type} {evalG : g → Bool}
    {m : StateMachine g} {e cn : String} {t : TransitionRule g}
    (hcur : m.currentState = some cn)
    (hfind : m.transitions.find? (matchesRule evalG cn e) = some t)
    (herr : (trigger evalG m e).err = none) :
    (trigger evalG m e).machine =
      { m with currentState := some t.target,
               history := m.history ++ [t.target],
               states := resetTimer m.states t.target } := by
  cases hget : getState m t.target with
  | none => simp [trigger, transitionTo, hcur, hfind, hget] at herr
  | some s =>
    cases h1 : cbThrows (exitHookOf m) with
    | true =>
      exfalso
      have herr2 : hookErr (exitHookOf m) = none := by
        simpa [trigger, transitionTo, hcur, hfind, hget, h1] using herr
      rw [hookErr_eq_none_iff, h1] at herr2
      simp at herr2
    | false =>
      cases h2 : cbThrows t.action with
      | true =>
        exfalso
        have herr2 : hookErr t.action = none := by
          simpa [trigger, transitionTo, hcur, hfind, hget, h1, h2] using herr
        rw [hookErr_eq_none_iff, h2] at herr2
        simp at herr2
      | false => simp [trigger, transitionTo, hcur, hfind, hget, h1, h2]

/-! ## Claim theorems -/

/-- C1: for every started machine, trigger selects exactly the first rule
in insertion order whose source equals the current state name or is the
wildcard, whose event matches, and whose guard is absent or evaluates to
true; no precedence between exact and wildcard rules beyond insertion
order. -/
theorem trigger_first_match {g : Type} (evalG : g → Bool)
    (m : StateMachine g) (e cn : String) (t : TransitionRule g)
    (hcur : m.currentState = some cn) :
    (trigger evalG m e).selected = some t ↔
      matchesRule evalG cn e t = true ∧
      ∃ pre post, m.transitions = pre ++ t :: post ∧
        ∀ t2 ∈ pre, matchesRule evalG cn e t2 = false := by
  rw [trigger_selected_eq evalG m e cn hcur, List.find?_eq_some]
  simp only [Bool.not_eq_true']

/-- Witness instantiating the C1 theorem on a concrete machine. -/
theorem trigger_first_match_witness :
    (trigger id mW "GO").selected = some mWrule := by
  exact (trigger_first_match id mW "GO" "A" mWrule rfl).mpr
    ⟨by decide, [], [], rfl, by simp⟩

/-- C2: whenever trigger finds a matching rule, it performs exactly exit,
then action, then commit of current state and history, then enter; the
call-order log and the machine fields witness the order. -/
theorem transition_lifecycle_order {g : Type} (evalG : g → Bool)
    (m : StateMachine g) (e cn : String) (t : TransitionRule g)
    (s : StateDef)
    (hcur : m.currentState = some cn)
    (hfind : m.transitions.find? (matchesRule evalG cn e) = some t)
    (hget : getState m t.target = some s)
    (hex : cbThrows (exitHookOf m) = false)
    (hac : cbThrows t.action = false)
    (hen : cbThrows s.onEnter = false) :
    (trigger evalG m e).log =
      hookLabels (exitHookOf m) ++ hookLabels t.action ++
        hookLabels s.onEnter ∧
    (trigger evalG m e).machine.currentState = some t.target ∧
    (trigger evalG m e).machine.history = m.history ++ [t.target] ∧
    (trigger evalG m e).err = none ∧
    (trigger evalG m e).returned = some true := by
  have hc := transitionTo_commit hget hex hac
  refine ⟨?_, ?_, ?_, ?_, ?_⟩ <;>
    simp [trigger, hcur, hfind, hc, hookErr_eq_none hen]

/-- Witness instantiating the C2 theorem on a concrete machine. -/
theorem transition_lifecycle_order_witness :
    (trigger id mW "GO").log = ["exitA", "actAB", "enterB"] ∧
    (trigger id mW "GO").machine.currentState = some "B" ∧
    (trigger id mW "GO").machine.history = ["A", "B"] ∧
    (trigger id mW "GO").err = none ∧
    (trigger id mW "GO").returned = some true := by
  have h := transition_lifecycle_order id mW "GO" "A" mWrule mWstateB
    rfl rfl rfl rfl rfl rfl
  exact ⟨h.1.trans rfl, h.2.1, h.2.2.1.trans rfl, h.2.2.2.1, h.2.2.2.2⟩

/-- C3 counterexample: on a table registering, for the same event, an
exact rule with a failing guard before a guard-free wildcard rule, trigger
does try the wildcard rule: it selects it and the transition occurs,
contradicting the claim that the wildcard is never tried and no transition
occurs. -/
theorem guard_failed_exact_rule_cx :
    (trigger id mC3 "GO").selected = some mC3Wildcard ∧
    (trigger id mC3 "GO").machine.currentState = some "S" ∧
    (trigger id mC3 "GO").returned = some true := by
  decide

/-- C3 amended: an exact-match rule whose guard evaluates to false does
not shadow a later wildcard rule for the same event; the scan continues
past it, the wildcard rule is tried, and trigger selects it. -/
theorem guard_failed_exact_rule_scan_continues {g : Type}
    (evalG : g → Bool) (m : StateMachine g) (cn e : String)
    (t1 t2 : TransitionRule g)
    (hcur : m.currentState = some cn)
    (htab : m.transitions = [t1, t2])
    (h1src : t1.src = cn) (h1ev : t1.event = e)
    (h1g : ∃ gd, t1.guard = some gd ∧ evalG gd = false)
    (h2src : t2.src = "*") (h2ev : t2.event = e)
    (h2g : t2.guard = none ∨ ∃ gd, t2.guard = some gd ∧ evalG gd = true) :
    (trigger evalG m e).selected = some t2 := by
  obtain ⟨gd1, hgd1, hev1⟩ := h1g
  have hm1 : matchesRule evalG cn e t1 = false := by
    simp [matchesRule, hgd1, hev1]
  have hm2 : matchesRule evalG cn e t2 = true := by
    rcases h2g with h | ⟨gd2, hgd2, hev2⟩ <;>
      simp [matchesRule, h2src, h2ev, *]
  have hf : m.transitions.find? (matchesRule evalG cn e) = some t2 := by
    rw [htab, List.find?_cons_of_neg _ (by simp [hm1]),
      List.find?_cons_of_pos _ hm2]
  rw [trigger_selected_eq evalG m e cn hcur, hf]

/-- Witness instantiating the amended C3 theorem on the concrete
counterexample machine. -/
theorem guard_failed_exact_rule_scan_continues_witness :
    (trigger id mC3 "GO").selected = some mC3Wildcard := by
  exact guard_failed_exact_rule_scan_continues id mC3 "A" "GO"
    { src := "A", target := "B", event := "GO", guard := some false }
    mC3Wildcard (by decide) (by decide) rfl rfl
    ⟨false, rfl, rfl⟩ rfl rfl (Or.inl rfl)

/-- C5 counterexample: on a machine where the trigger fired by the timer
behavior finds no matching rule, the behavior calls trigger again on the
very next tick past the threshold, contradicting the claim that trigger is
called exactly once per threshold crossing. -/
theorem timer_retrigger_cx :
    (update id mC5 30000).triggerCalled = true ∧
    (update id mC5 30000).returned = some false ∧
    (update id (update id mC5 30000).machine 1).triggerCalled = true := by
  decide

/-- C5 amended: the behavior counter is reset to 0 on entering the state,
incremented by deltaTime in onUpdate, and trigger is called on every tick
in which the incremented counter reaches or exceeds the duration, not once
per crossing; once a trigger commits a transition, the entered state
starts with its counter reset, which is the only re-trigger protection. -/
theorem timer_behavior_update_characterization {g : Type}
    (evalG : g → Bool) (m : StateMachine g) (d : Nat) (cn : String)
    (s : StateDef) (b : TimerBehavior)
    (hcur : m.currentState = some cn)
    (hs : getState m cn = some s)
    (hb : s.behavior = some b) :
    ((update evalG m d).triggerCalled = decide (b.duration ≤ b.timer + d)) ∧
    ((update evalG m d).selected = none →
      (update evalG m d).machine =
        { m with states := setTimer m.states cn (b.timer + d) }) ∧
    (∀ t s2 b2, (update evalG m d).selected = some t →
      (update evalG m d).err = none →
      getState (update evalG m d).machine t.target = some s2 →
      s2.behavior = some b2 → b2.timer = 0) := by
  by_cases hd : b.duration ≤ b.timer + d
  · have hrw : update evalG m d =
        { trigger evalG { m with states := setTimer m.states cn (b.timer + d) }
            b.event with triggerCalled := true } := by
      simp [update, hcur, hs, hb, hd]
    set m1 : StateMachine g :=
      { m with states := setTimer m.states cn (b.timer + d) } with hm1
    have hm1cur : m1.currentState = some cn := hcur
    refine ⟨by simp [hrw, hd], ?_, ?_⟩
    · intro hsel
      have hf : m1.transitions.find? (matchesRule evalG cn b.event) = none := by
        have := trigger_selected_eq evalG m1 b.event cn hm1cur
        rw [hrw] at hsel
        simp only [OpResult.selected] at hsel
        rw [this] at hsel
        exact hsel
      simp [hrw, trigger, hm1cur, hf, hcur]
    · intro t s2 b2 hsel herr hget2 hb2
      have hselT : (trigger evalG m1 b.event).selected = some t := by
        rw [hrw] at hsel; exact hsel
      have herrT : (trigger evalG m1 b.event).err = none := by
        rw [hrw] at herr; exact herr
      have hfind : m1.transitions.find? (matchesRule evalG cn b.event) =
          some t := by
        rw [← trigger_selected_eq evalG m1 b.event cn hm1cur]; exact hselT
      have hmach := trigger_commit_machine hm1cur hfind herrT
      have hget3 : getState (trigger evalG m1 b.event).machine t.target =
          some s2 := by
        rw [hrw] at hget2; exact hget2
      rw [hmach] at hget3
      have hget4 :
          (resetTimer m1.states t.target).find?
            (fun st => st.name == t.target) = some s2 := hget3
      rw [find?_resetTimer] at hget4
      cases horig : m1.states.find? (fun st => st.name == t.target) with
      | none => rw [horig] at hget4; simp at hget4
      | some s0 =>
        rw [horig] at hget4
        simp only [Option.map_some'] at hget4
        have hs2 : s2 = { s0 with
            behavior := s0.behavior.map
              (fun bb => { bb with timer := 0 }) } :=
          (Option.some_inj.mp hget4).symm
        rw [hs2] at hb2
        simp only at hb2
        cases hsb : s0.behavior with
        | none => rw [hsb] at hb2; simp at hb2
        | some b0 =>
          rw [hsb] at hb2
          simp only [Option.map_some', Option.some_inj] at hb2
          rw [← hb2]
  · have hrw : update evalG m d =
        { machine := { m with states := setTimer m.states cn (b.timer + d) } } := by
      simp [update, hcur, hs, hb, hd]
    refine ⟨by simp [hrw, hd], by intro _; simp [hrw], ?_⟩
    intro t s2 b2 hsel herr hget2 hb2
    rw [hrw] at hsel
    simp at hsel

/-- Witness instantiating the amended C5 theorem on the concrete stuck
machine. -/
theorem timer_behavior_update_characterization_witness :
    (update id mC5 40000).triggerCalled = true ∧
    (update id mC5 4).triggerCalled = false := by
  have h1 := timer_behavior_update_characterization id mC5 40000 "RED"
    RedLightState { timer := 0, duration := 30000, event := "TIMER_EXPIRED" }
    (by decide) (by decide) rfl
  have h2 := timer_behavior_update_characterization id mC5 4 "RED"
    RedLightState { timer := 0, duration := 30000, event := "TIMER_EXPIRED" }
    (by decide) (by decide) rfl
  exact ⟨h1.1.trans (by decide), h2.1.trans (by decide)⟩

/-- C6: addState with an already-registered name raises
DuplicateStateError and leaves the registry unchanged; addTransition with
an unregistered non-wildcard source or an unregistered target raises
UnknownStateError and leaves the table length unchanged. -/
theorem registration_validation {g : Type} (m : StateMachine g)
    (s : StateDef) (t : TransitionRule g) :
    (hasState m s.name = true →
      addState m s = .error (.duplicateState s.name) ∧
      (addStateD m s).states = m.states) ∧
    (((t.src ≠ "*" ∧ hasState m t.src = false) ∨
        hasState m t.target = false) →
      (∃ n, addTransition m t = .error (.unknownState n)) ∧
      (addTransitionD m t).transitions.length = m.transitions.length) := by
  constructor
  · intro h
    exact ⟨by simp [addState, h], by simp [addStateD, addState, h]⟩
  · intro h
    by_cases hcond : (t.src != "*" && !(hasState m t.src)) = true
    · exact ⟨⟨t.src, by simp [addTransition, hcond]⟩,
        by simp [addTransitionD, addTransition, hcond]⟩
    · have hmiss : hasState m t.target = false := by
        rcases h with ⟨hsrc, hmiss2⟩ | hmiss2
        · exact absurd (by simp [hsrc, hmiss2]) hcond
        · exact hmiss2
      exact ⟨⟨t.target, by simp [addTransition, hcond, hmiss]⟩,
        by simp [addTransitionD, addTransition, hcond, hmiss]⟩

/-- Witness instantiating the C6 theorem on a concrete machine. -/
theorem registration_validation_witness :
    (addState mW { name := "A" } = .error (.duplicateState "A") ∧
      (addStateD mW { name := "A" }).states = mW.states) ∧
    ((∃ n, addTransition mW { src := "A", target := "C", event := "E" } =
        .error (.unknownState n)) ∧
      (addTransitionD mW
        { src := "A", target := "C", event := "E" }).transitions.length =
        mW.transitions.length) := by
  have h := registration_validation mW { name := "A" }
    { src := "A", target := "C", event := "E" }
  exact ⟨h.1 (by decide), h.2 (Or.inr (by decide))⟩

/-- C7: on a machine that was never started, trigger raises
NotStartedError, getCurrentState raises NotStartedError, update raises
NotStartedError, and canTransition returns false without raising. -/
theorem not_started_behavior {g : Type} (evalG : g → Bool)
    (m : StateMachine g) (e : String) (d : Nat)
    (h : m.currentState = none) :
    (trigger evalG m e).err = some .notStarted ∧
    (trigger evalG m e).machine = m ∧
    getCurrentState m = .error .notStarted ∧
    (update evalG m d).err = some .notStarted ∧
    (update evalG m d).machine = m ∧
    canTransition evalG m e = false := by
  refine ⟨?_, ?_, ?_, ?_, ?_, ?_⟩ <;>
    simp [trigger, update, getCurrentState, canTransition, h]

/-- Witness instantiating the C7 theorem on the empty machine. -/
theorem not_started_behavior_witness :
    (trigger (g := Bool) id {} "GO").err = some .notStarted ∧
    canTransition (g := Bool) id {} "GO" = false := by
  have h := not_started_behavior (g := Bool) id {} "GO" 5 rfl
  exact ⟨h.1, h.2.2.2.2.2⟩

/-- C8: start raises UnknownStateError for an unregistered name (checked
first), AlreadyStartedError when a current state already exists, and on
success sets the current state, appends to history, and then invokes
onEnter, whose exception propagates uncaught after the machine has
already been mutated. -/
theorem start_semantics {g : Type} (m : StateMachine g) (n : String) :
    (getState m n = none →
      (start m n).err = some (.unknownState n) ∧ (start m n).machine = m) ∧
    (∀ s, getState m n = some s → m.currentState.isSome = true →
      (start m n).err = some .alreadyStarted ∧ (start m n).machine = m) ∧
    (∀ s, getState m n = some s → m.currentState = none →
      (start m n).machine.currentState = some n ∧
      (start m n).machine.history = m.history ++ [n] ∧
      (start m n).log = hookLabels s.onEnter ∧
      (start m n).err = hookErr s.onEnter) := by
  refine ⟨?_, ?_, ?_⟩
  · intro h; exact ⟨by simp [start, h], by simp [start, h]⟩
  · intro s hs hsome
    exact ⟨by simp [start, hs, hsome], by simp [start, hs, hsome]⟩
  · intro s hs hnone
    refine ⟨?_, ?_, ?_, ?_⟩ <;> simp [start, hs, hnone]

/-- Witness instantiating the C8 theorem: a successful start on a machine
whose onEnter raises leaves the machine started with the history appended
while the fault propagates. -/
theorem start_semantics_witness :
    (start mWthrow "A").machine.currentState = some "A" ∧
    (start mWthrow "A").machine.history = ["A"] ∧
    (start mWthrow "A").log = ["boom"] ∧
    (start mWthrow "A").err = some (.hookFault "boom") ∧
    (start mWthrow "Z").err = some (.unknownState "Z") := by
  have h := (start_semantics mWthrow "A").2.2
    { name := "A", onEnter := some { label := "boom", throws := true } }
    (by decide) rfl
  have h2 := (start_semantics mWthrow "Z").1 (by decide)
  exact ⟨h.1, h.2.1.trans rfl, h.2.2.1.trans rfl, h.2.2.2.trans rfl, h2.1⟩

/-- C9: the history of a machine driven by any operation sequence from a
fresh machine is exactly the initial state followed by every successfully
transitioned-to state in order, and the array returned by getHistory is an
independent copy: overwriting it does not change the history the machine
holds. -/
theorem history_roundtrip_and_copy :
    (∀ (g : Type) (evalG : g → Bool) (ops : List (Op g)),
      getHistory (runOps evalG {} ops) = specVisited evalG {} ops) ∧
    (∀ (h : Heap) (mref : Nat) (v : List String),
      mref < h.cells.length →
      (getHistoryRef h mref).2 ≠ mref ∧
      (getHistoryRef h mref).1.read (getHistoryRef h mref).2 = h.read mref ∧
      ((getHistoryRef h mref).1.write (getHistoryRef h mref).2 v).read mref =
        h.read mref) := by
  constructor
  · intro g evalG ops
    have h := runOps_history evalG ops ({} : StateMachine g)
    simpa [getHistory] using h
  · intro h mref v hlt
    refine ⟨by simp [getHistoryRef, Heap.alloc]; omega, ?_, ?_⟩
    · simp [getHistoryRef, Heap.alloc, Heap.read, List.get?_concat_length]
    · simp only [getHistoryRef, Heap.alloc, Heap.read, Heap.write]
      rw [List.get?_set_ne _ _ (by omega), List.get?_append hlt]

/-- Witness instantiating the C9 theorem, with the heap hypothesis
discharged on a one-cell heap. -/
theorem history_roundtrip_and_copy_witness :
    getHistory (runOps (g := Bool) id {}
      [.addState { name := "A" }, .start "A"]) =
      specVisited (g := Bool) id {} [.addState { name := "A" }, .start "A"] ∧
    (getHistoryRef { cells := [["A"]] } 0).2 ≠ 0 ∧
    ((getHistoryRef { cells := [["A"]] } 0).1.write
      (getHistoryRef { cells := [["A"]] } 0).2 ["X"]).read 0 =
      Heap.read { cells := [["A"]] } 0 := by
  have h1 := history_roundtrip_and_copy.1 Bool id
    [.addState { name := "A" }, .start "A"]
  have h2 := history_roundtrip_and_copy.2 { cells := [["A"]] } 0 ["X"]
    (by decide)
  exact ⟨h1, h2.1, h2.2.2⟩

/-- C10: for every machine and every operation sequence from a fresh
machine, a current state exists iff the history is nonempty, and the
current state name is the last element of the history. -/
theorem current_state_history_invariant :
    ∀ (g : Type) (evalG : g → Bool) (ops : List (Op g)),
      histInv (runOps evalG {} ops) := by
  intro g evalG ops
  have h := runOps_core evalG ops ({} : StateMachine g) (fun _ => rfl)
    (by intro n hn; simp at hn)
  constructor
  · constructor
    · rintro ⟨n, hn⟩ hempty
      rw [getCurrentState_ok_iff] at hn
      have hlast := h.2 n hn
      rw [getHistory] at hempty
      rw [hempty] at hlast
      simp at hlast
    · intro hne
      cases hcur : (runOps evalG {} ops).currentState with
      | some n => exact ⟨n, (getCurrentState_ok_iff _ _).mpr hcur⟩
      | none => exact absurd (h.1 hcur) (by simpa [getHistory] using hne)
  · intro n hn
    rw [getCurrentState_ok_iff] at hn
    simpa [getHistory] using h.2 n hn

/-! ## Lemmas for the IntersectionController safety invariant -/

theorem setTimer_lights_red (a b c t : Nat) :
    setTimer [redT a, greenT b, yellowT c] "RED" t =
      [redT t, greenT b, yellowT c] := rfl

theorem setTimer_lights_green (a b c t : Nat) :
    setTimer [redT a, greenT b, yellowT c] "GREEN" t =
      [redT a, greenT t, yellowT c] := rfl

theorem setTimer_lights_yellow (a b c t : Nat) :
    setTimer [redT a, greenT b, yellowT c] "YELLOW" t =
      [redT a, greenT b, yellowT t] := rfl

theorem resetTimer_lights_red (a b c : Nat) :
    resetTimer [redT a, greenT b, yellowT c] "RED" =
      [redT 0, greenT b, yellowT c] := rfl

theorem resetTimer_lights_green (a b c : Nat) :
    resetTimer [redT a, greenT b, yellowT c] "GREEN" =
      [redT a, greenT 0, yellowT c] := rfl

theorem resetTimer_lights_yellow (a b c : Nat) :
    resetTimer [redT a, greenT b, yellowT c] "YELLOW" =
      [redT a, greenT b, yellowT 0] := rfl

theorem getState_shaped {m : StateMachine ICGuard} {a b c : Nat}
    (hst : m.states = [redT a, greenT b, yellowT c]) :
    getState m "RED" = some (redT a) ∧
    getState m "GREEN" = some (greenT b) ∧
    getState m "YELLOW" = some (yellowT c) := by
  unfold getState
  rw [hst]
  exact ⟨rfl, rfl, rfl⟩

theorem shaped_exit_nothrow {m : StateMachine ICGuard} {a b c : Nat}
    (hst : m.states = [redT a, greenT b, yellowT c]) :
    cbThrows (exitHookOf m) = false := by
  unfold exitHookOf
  cases hb : m.currentState.bind (getState m) with
  | none => rfl
  | some s =>
    have hmem : s ∈ m.states := by
      cases hcur : m.currentState with
      | none => rw [hcur] at hb; simp at hb
      | some cn =>
        rw [hcur] at hb
        simp only [Option.some_bind] at hb
        exact List.mem_of_find?_eq_some hb
    rw [hst] at hmem
    simp only [List.mem_cons, List.not_mem_nil, or_false] at hmem
    rcases hmem with h | h | h <;> rw [h] <;> rfl

theorem stateIsRedOrUnstarted_shaped {m : StateMachine ICGuard} {cn : String}
    (hcur : m.currentState = some cn)
    (h : stateIsRedOrUnstarted m = true) :
    m.currentState = some "RED" := by
  rw [stateIsRedOrUnstarted] at h
  rw [getCurrentState] at h
  rw [hcur] at h
  simp only [beq_iff_eq] at h
  rw [hcur, h]

theorem trigger_result_cases {g : Type} (evalG : g → Bool)
    (m : StateMachine g) (e : String) :
    (trigger evalG m e).machine = m ∨
    ∃ cn t, m.currentState = some cn ∧ t ∈ m.transitions ∧
      matchesRule evalG cn e t = true ∧
      ((trigger evalG m e).machine = m ∨
       (trigger evalG m e).machine =
         { m with currentState := some t.target,
                  history := m.history ++ [t.target],
                  states := resetTimer m.states t.target }) := by
  cases hc : m.currentState with
  | none => left; simp [trigger, hc]
  | some cn =>
    cases hf : m.transitions.find? (matchesRule evalG cn e) with
    | none => left; simp [trigger, hc, hf]
    | some t =>
      right
      refine ⟨cn, t, rfl, List.mem_of_find?_eq_some hf,
        List.find?_some hf, ?_⟩
      have hmm : (trigger evalG m e).machine =
          (transitionTo m t.target t.action).machine := by
        simp [trigger, hc, hf]
      rw [hmm]
      exact transitionTo_machine_cases m t.target t.action

theorem update_machine_cases2 {g : Type} (evalG : g → Bool)
    (m : StateMachine g) (d : Nat) :
    (update evalG m d).machine = m ∨
    (∃ cn s b, m.currentState = some cn ∧ getState m cn = some s ∧
      s.behavior = some b ∧
      ((update evalG m d).machine =
        { m with states := setTimer m.states cn (b.timer + d) } ∨
       (update evalG m d).machine =
        (trigger evalG { m with states := setTimer m.states cn (b.timer + d) }
          b.event).machine)) := by
  cases hc : m.currentState with
  | none => simp [update, hc]
  | some cn =>
    cases hs : getState m cn with
    | none => simp [update, hc, hs]
    | some s =>
      cases hb : s.behavior with
      | none => simp [update, hc, hs, hb]
      | some b =>
        by_cases hd : b.duration ≤ b.timer + d
        · refine Or.inr ⟨cn, s, b, rfl, hs, hb, Or.inr ?_⟩
          simp [update, hc, hs, hb, hd]
        · refine Or.inr ⟨cn, s, b, rfl, hs, hb, Or.inl ?_⟩
          simp [update, hc, hs, hb, hd]

theorem icTrigger_shape {m : StateMachine ICGuard} {gd : ICGuard}
    {axis : String} (evalG : ICGuard → Bool) (e : String)
    (hm : MachineShape m gd axis) :
    MachineShape ((trigger evalG m e).machine) gd axis ∧
    ((trigger evalG m e).machine.currentState = some "GREEN" →
      m.currentState = some "GREEN" ∨
      (m.currentState = some "RED" ∧ evalG gd = true) ∨
      e = "FORCE_GREEN") := by
  obtain ⟨⟨a, b, c, hst⟩, ⟨k, htr⟩, hcur3⟩ := hm
  rcases trigger_result_cases evalG m e with hsame |
    ⟨cn, t, hcn, htmem, hp, hmach⟩
  · rw [hsame]
    exact ⟨⟨⟨a, b, c, hst⟩, ⟨k, htr⟩, hcur3⟩, fun h => Or.inl h⟩
  rcases hmach with hsame | hcommit
  · rw [hsame]
    exact ⟨⟨⟨a, b, c, hst⟩, ⟨k, htr⟩, hcur3⟩, fun h => Or.inl h⟩
  rw [htr] at htmem
  rcases List.mem_append.mp htmem with hbase | hrep
  · simp only [axisBase, List.mem_cons, List.not_mem_nil, or_false] at hbase
    rcases hbase with h0 | h1 | h2 | h3
    · subst h0
      simp only [matchesRule, Bool.and_eq_true, Bool.or_eq_true,
        beq_iff_eq] at hp
      obtain ⟨⟨hsrc, _⟩, hgd⟩ := hp
      have hcnred : cn = "RED" := by
        rcases hsrc with h | h
        · exact h.symm
        · exact absurd h (by decide)
      refine ⟨⟨⟨a, 0, c, ?_⟩, ⟨k, ?_⟩, ?_⟩, ?_⟩
      · rw [hcommit]
        show resetTimer m.states "GREEN" = _
        rw [hst]
        exact resetTimer_lights_green a b c
      · rw [hcommit]; exact htr
      · rw [hcommit]; right; left; rfl
      · intro _
        right; left
        refine ⟨?_, hgd⟩
        rw [hcn, hcnred]
    · subst h1
      refine ⟨⟨⟨a, b, 0, ?_⟩, ⟨k, ?_⟩, ?_⟩, ?_⟩
      · rw [hcommit]
        show resetTimer m.states "YELLOW" = _
        rw [hst]
        exact resetTimer_lights_yellow a b c
      · rw [hcommit]; exact htr
      · rw [hcommit]; right; right; rfl
      · intro h
        rw [hcommit] at h
        simp at h
    · subst h2
      refine ⟨⟨⟨0, b, c, ?_⟩, ⟨k, ?_⟩, ?_⟩, ?_⟩
      · rw [hcommit]
        show resetTimer m.states "RED" = _
        rw [hst]
        exact resetTimer_lights_red a b c
      · rw [hcommit]; exact htr
      · rw [hcommit]; left; rfl
      · intro h
        rw [hcommit] at h
        simp at h
    · subst h3
      refine ⟨⟨⟨0, b, c, ?_⟩, ⟨k, ?_⟩, ?_⟩, ?_⟩
      · rw [hcommit]
        show resetTimer m.states "RED" = _
        rw [hst]
        exact resetTimer_lights_red a b c
      · rw [hcommit]; exact htr
      · rw [hcommit]; left; rfl
      · intro h
        rw [hcommit] at h
        simp at h
  · have ht := (List.mem_replicate.mp hrep).2
    subst ht
    have hev : e = "FORCE_GREEN" := by
      simp only [axisForce, matchesRule, Bool.and_eq_true, Bool.or_eq_true,
        beq_iff_eq] at hp
      exact hp.1.2.symm
    refine ⟨⟨⟨a, 0, c, ?_⟩, ⟨k, ?_⟩, ?_⟩, ?_⟩
    · rw [hcommit]
      show resetTimer m.states "GREEN" = _
      rw [hst]
      exact resetTimer_lights_green a b c
    · rw [hcommit]; exact htr
    · rw [hcommit]; right; left; rfl
    · intro _
      right; right
      exact hev

theorem icTrigger_emergency {m : StateMachine ICGuard} {gd : ICGuard}
    {axis : String} (evalG : ICGuard → Bool)
    (hm : MachineShape m gd axis) :
    (trigger evalG m "EMERGENCY_OVERRIDE").machine.currentState =
      some "RED" := by
  obtain ⟨⟨a, b, c, hst⟩, ⟨k, htr⟩, hcur3⟩ := hm
  have hex : cbThrows (exitHookOf m) = false := shaped_exit_nothrow hst
  have hgetR : getState m "RED" = some (redT a) := (getState_shaped hst).1
  obtain ⟨cn, hcur⟩ : ∃ cn, m.currentState = some cn := by
    rcases hcur3 with h | h | h <;> exact ⟨_, h⟩
  have hfind : ∀ cn2 : String, m.transitions.find?
      (matchesRule evalG cn2 "EMERGENCY_OVERRIDE") =
      some { src := "*", target := "RED", event := "EMERGENCY_OVERRIDE",
             guard := none, action := none } := by
    intro cn2
    rw [htr, List.find?_append]
    simp [matchesRule, axisBase, axisForce, List.find?_replicate,
      List.find?_cons]
  rw [show (trigger evalG m "EMERGENCY_OVERRIDE").machine =
      (transitionTo m "RED" none).machine from by
    simp [trigger, hcur, hfind cn]]
  rw [@transitionTo_commit ICGuard m "RED" none (redT a) hgetR hex rfl]

theorem shaped_started {m : StateMachine ICGuard} {gd : ICGuard}
    {axis : String} (hm : MachineShape m gd axis) :
    ∃ cn, m.currentState = some cn := by
  obtain ⟨_, _, h3⟩ := hm
  rcases h3 with h | h | h <;> exact ⟨_, h⟩

theorem shaped_guard_red {m : StateMachine ICGuard} {gd : ICGuard}
    {axis : String} (hm : MachineShape m gd axis)
    (h : stateIsRedOrUnstarted m = true) :
    m.currentState = some "RED" := by
  obtain ⟨cn, hcn⟩ := shaped_started hm
  exact stateIsRedOrUnstarted_shaped hcn h

theorem setTimer_shape {m : StateMachine ICGuard} {gd : ICGuard}
    {axis : String} {cn : String} (t1 : Nat)
    (hm : MachineShape m gd axis)
    (hcn3 : cn = "RED" ∨ cn = "GREEN" ∨ cn = "YELLOW") :
    MachineShape { m with states := setTimer m.states cn t1 } gd axis := by
  obtain ⟨⟨tA, tB, tC, hst⟩, ⟨k, htr⟩, hcur3⟩ := hm
  refine ⟨?_, ⟨k, htr⟩, hcur3⟩
  rcases hcn3 with hcn | hcn | hcn <;> subst hcn
  · exact ⟨t1, tB, tC, by
      show setTimer m.states "RED" t1 = _
      rw [hst]; exact setTimer_lights_red tA tB tC t1⟩
  · exact ⟨tA, t1, tC, by
      show setTimer m.states "GREEN" t1 = _
      rw [hst]; exact setTimer_lights_green tA tB tC t1⟩
  · exact ⟨tA, tB, t1, by
      show setTimer m.states "YELLOW" t1 = _
      rw [hst]; exact setTimer_lights_yellow tA tB tC t1⟩

theorem icUpdate_shape {m : StateMachine ICGuard} {gd : ICGuard}
    {axis : String} (evalG : ICGuard → Bool) (d : Nat)
    (hm : MachineShape m gd axis) :
    MachineShape ((update evalG m d).machine) gd axis ∧
    ((update evalG m d).machine.currentState = some "GREEN" →
      m.currentState = some "GREEN" ∨
      (m.currentState = some "RED" ∧ evalG gd = true)) := by
  rcases update_machine_cases2 evalG m d with hsame |
    ⟨cn, s, bb, hcn, hgets, hbeh, hcase⟩
  · rw [hsame]; exact ⟨hm, fun h => Or.inl h⟩
  obtain ⟨⟨tA, tB, tC, hst⟩, ⟨k, htr⟩, hcur3⟩ := hm
  have hcn3 : cn = "RED" ∨ cn = "GREEN" ∨ cn = "YELLOW" := by
    rcases hcur3 with h | h | h
    · exact Or.inl (Option.some_inj.mp (hcn.symm.trans h))
    · exact Or.inr (Or.inl (Option.some_inj.mp (hcn.symm.trans h)))
    · exact Or.inr (Or.inr (Option.some_inj.mp (hcn.symm.trans h)))
  have hm0 : MachineShape m gd axis := ⟨⟨tA, tB, tC, hst⟩, ⟨k, htr⟩, hcur3⟩
  have hm1 : MachineShape
      { m with states := setTimer m.states cn (bb.timer + d) } gd axis :=
    setTimer_shape (bb.timer + d) hm0 hcn3
  have hev : bb.event = "TIMER_EXPIRED" := by
    rcases hcn3 with hcn2 | hcn2 | hcn2 <;> subst hcn2
    · have hsr : s = redT tA :=
        Option.some_inj.mp (hgets.symm.trans (getState_shaped hst).1)
      rw [hsr] at hbeh
      have hbb : ({ timer := tA, duration := 30000,
                    event := "TIMER_EXPIRED" } : TimerBehavior) = bb :=
        Option.some_inj.mp hbeh
      rw [← hbb]
    · have hsr : s = greenT tB :=
        Option.some_inj.mp (hgets.symm.trans (getState_shaped hst).2.1)
      rw [hsr] at hbeh
      have hbb : ({ timer := tB, duration := 25000,
                    event := "TIMER_EXPIRED" } : TimerBehavior) = bb :=
        Option.some_inj.mp hbeh
      rw [← hbb]
    · have hsr : s = yellowT tC :=
        Option.some_inj.mp (hgets.symm.trans (getState_shaped hst).2.2)
      rw [hsr] at hbeh
      have hbb : ({ timer := tC, duration := 5000,
                    event := "TIMER_EXPIRED" } : TimerBehavior) = bb :=
        Option.some_inj.mp hbeh
      rw [← hbb]
  rcases hcase with hmach | hmach
  · rw [hmach]
    exact ⟨hm1, fun h => Or.inl h⟩
  · rw [hmach, hev]
    have htr2 := icTrigger_shape evalG "TIMER_EXPIRED" hm1
    refine ⟨htr2.1, ?_⟩
    intro h
    rcases htr2.2 h with hA | ⟨hR, hGd⟩ | hF
    · exact Or.inl hA
    · exact Or.inr ⟨hR, hGd⟩
    · simp at hF

theorem addForce_shape {m : StateMachine ICGuard} {gd : ICGuard}
    {axis : String} (t : TransitionRule ICGuard) (ht : t = axisForce axis)
    (hm : MachineShape m gd axis) :
    MachineShape (addTransitionD m t) gd axis ∧
    (addTransitionD m t).currentState = m.currentState := by
  obtain ⟨⟨tA, tB, tC, hst⟩, ⟨k, htr⟩, hcur3⟩ := hm
  subst ht
  have hhas : hasState m "GREEN" = true := by
    rw [hasState, hst]; rfl
  have hstep : addTransitionD m (axisForce axis) =
      { m with transitions := m.transitions ++ [axisForce axis] } := by
    simp [addTransitionD, addTransition, axisForce, hhas]
  constructor
  · refine ⟨⟨tA, tB, tC, by rw [hstep]; exact hst⟩, ⟨k + 1, ?_⟩,
      by rw [hstep]; exact hcur3⟩
    rw [hstep]
    show m.transitions ++ [axisForce axis] = _
    rw [htr, List.replicate_succ', List.append_assoc]
  · rw [hstep]

theorem icUpdate_inv {c : IntersectionController} (d : Nat) (h : ICInv c) :
    ICInv (icUpdate c d) := by
  obtain ⟨hNS, hEW, hRun, hSafe⟩ := h
  have hns1 := icUpdate_shape (icEval c.northSouth c.eastWest) d hNS
  have hew1 := icUpdate_shape
    (icEval (update (icEval c.northSouth c.eastWest) c.northSouth d).machine
      c.eastWest) d hEW
  simp only [icUpdate, hRun, Bool.not_true, Bool.false_eq_true, if_false]
  refine ⟨hns1.1, hew1.1, rfl, ?_⟩
  rintro ⟨hg1, hg2⟩
  rcases hew1.2 hg2 with hA | ⟨hR, hGd⟩
  · rcases hns1.2 hg1 with hA1 | ⟨hR1, hGd1⟩
    · exact hSafe ⟨hA1, hA⟩
    · have hred : c.eastWest.currentState = some "RED" :=
        shaped_guard_red hEW hGd1
      rw [hred] at hA
      simp at hA
  · have hred : (update (icEval c.northSouth c.eastWest) c.northSouth
        d).machine.currentState = some "RED" :=
      shaped_guard_red hns1.1 hGd
    rw [hred] at hg1
    simp at hg1

theorem icPed_inv {c : IntersectionController} (dir : ICDir)
    (h : ICInv c) : ICInv (icPedestrianButtonPressed c dir) := by
  obtain ⟨hNS, hEW, hRun, hSafe⟩ := h
  cases dir <;>
    simp only [icPedestrianButtonPressed, hRun, Bool.not_true,
      Bool.false_eq_true, if_false] <;>
    exact ⟨hNS, hEW, rfl, hSafe⟩

theorem icEmergency_inv {c : IntersectionController} (dir : ICDir)
    (h : ICInv c) : ICInv (icEmergencyVehicle c dir) := by
  obtain ⟨hNS, hEW, hRun, hSafe⟩ := h
  cases dir with
  | NS =>
    have h1 := (icTrigger_shape (icEval c.northSouth c.eastWest)
      "EMERGENCY_OVERRIDE" hNS).1
    have h2 := (icTrigger_shape
      (icEval (trigger (icEval c.northSouth c.eastWest) c.northSouth
        "EMERGENCY_OVERRIDE").machine c.eastWest) "FORCE_GREEN" h1).1
    have h3 := (icTrigger_shape
      (icEval (trigger (icEval (trigger (icEval c.northSouth c.eastWest)
          c.northSouth "EMERGENCY_OVERRIDE").machine c.eastWest)
        (trigger (icEval c.northSouth c.eastWest) c.northSouth
          "EMERGENCY_OVERRIDE").machine "FORCE_GREEN").machine c.eastWest)
      "EMERGENCY_OVERRIDE" hEW).1
    have hewRed := icTrigger_emergency
      (icEval (trigger (icEval (trigger (icEval c.northSouth c.eastWest)
          c.northSouth "EMERGENCY_OVERRIDE").machine c.eastWest)
        (trigger (icEval c.northSouth c.eastWest) c.northSouth
          "EMERGENCY_OVERRIDE").machine "FORCE_GREEN").machine c.eastWest)
      hEW
    have hns3 := addForce_shape nsForceIC rfl h2
    have hew2 := addForce_shape ewForceIC rfl h3
    simp only [icEmergencyVehicle, hRun, Bool.not_true, Bool.false_eq_true,
      if_false]
    refine ⟨hns3.1, hew2.1, rfl, ?_⟩
    rintro ⟨_, hg2⟩
    rw [hew2.2] at hg2
    rw [hewRed] at hg2
    simp at hg2
  | EW =>
    have h1 := (icTrigger_shape (icEval c.northSouth c.eastWest)
      "EMERGENCY_OVERRIDE" hEW).1
    have h2 := (icTrigger_shape
      (icEval c.northSouth (trigger (icEval c.northSouth c.eastWest)
        c.eastWest "EMERGENCY_OVERRIDE").machine) "FORCE_GREEN" h1).1
    have h3 := (icTrigger_shape
      (icEval c.northSouth (trigger (icEval c.northSouth
          (trigger (icEval c.northSouth c.eastWest) c.eastWest
            "EMERGENCY_OVERRIDE").machine)
        (trigger (icEval c.northSouth c.eastWest) c.eastWest
          "EMERGENCY_OVERRIDE").machine "FORCE_GREEN").machine)
      "EMERGENCY_OVERRIDE" hNS).1
    have hnsRed := icTrigger_emergency
      (icEval c.northSouth (trigger (icEval c.northSouth
          (trigger (icEval c.northSouth c.eastWest) c.eastWest
            "EMERGENCY_OVERRIDE").machine)
        (trigger (icEval c.northSouth c.eastWest) c.eastWest
          "EMERGENCY_OVERRIDE").machine "FORCE_GREEN").machine)
      hNS
    have hns3 := addForce_shape nsForceIC rfl h3
    have hew2 := addForce_shape ewForceIC rfl h2
    simp only [icEmergencyVehicle, hRun, Bool.not_true, Bool.false_eq_true,
      if_false]
    refine ⟨hns3.1, hew2.1, rfl, ?_⟩
    rintro ⟨hg1, _⟩
    rw [hns3.2] at hg1
    rw [hnsRed] at hg1
    simp at hg1

theorem icFireNS_inv {c : IntersectionController} (h : ICInv c) :
    ICInv (icFirePendingNS c) := by
  obtain ⟨hNS, hEW, hRun, hSafe⟩ := h
  unfold icFirePendingNS
  cases hp : c.pendingNS with
  | zero => exact ⟨hNS, hEW, hRun, hSafe⟩
  | succ k =>
    simp only [hRun, Bool.not_true, Bool.false_eq_true, if_false]
    refine ⟨(icTrigger_shape _ "TIMER_EXPIRED" hNS).1, hEW, rfl, ?_⟩
    rintro ⟨hg1, hg2⟩
    rcases (icTrigger_shape _ "TIMER_EXPIRED" hNS).2 hg1 with
      hA | ⟨hR, hGd⟩ | hF
    · exact hSafe ⟨hA, hg2⟩
    · have hred : c.eastWest.currentState = some "RED" :=
        shaped_guard_red hEW hGd
      rw [hred] at hg2
      simp at hg2
    · simp at hF

theorem icFireEW_inv {c : IntersectionController} (h : ICInv c) :
    ICInv (icFirePendingEW c) := by
  obtain ⟨hNS, hEW, hRun, hSafe⟩ := h
  unfold icFirePendingEW
  cases hp : c.pendingEW with
  | zero => exact ⟨hNS, hEW, hRun, hSafe⟩
  | succ k =>
    simp only [hRun, Bool.not_true, Bool.false_eq_true, if_false]
    refine ⟨hNS, (icTrigger_shape _ "TIMER_EXPIRED" hEW).1, rfl, ?_⟩
    rintro ⟨hg1, hg2⟩
    rcases (icTrigger_shape _ "TIMER_EXPIRED" hEW).2 hg2 with
      hA | ⟨hR, hGd⟩ | hF
    · exact hSafe ⟨hg1, hA⟩
    · have hred : c.northSouth.currentState = some "RED" :=
        shaped_guard_red hNS hGd
      rw [hred] at hg1
      simp at hg1
    · simp at hF

theorem icStep_inv (c : IntersectionController) (op : ICOp)
    (h : ICInv c) : ICInv (icStep c op) := by
  cases op with
  | update d => exact icUpdate_inv d h
  | pedestrianButtonPressed dir => exact icPed_inv dir h
  | emergencyVehicle dir => exact icEmergency_inv dir h
  | firePendingNS => exact icFireNS_inv h
  | firePendingEW => exact icFireEW_inv h

theorem icStart_inv : ICInv (icStart icNew) := by
  refine ⟨⟨⟨0, 0, 0, ?_⟩, ⟨0, ?_⟩, ?_⟩, ⟨⟨0, 0, 0, ?_⟩, ⟨0, ?_⟩, ?_⟩,
    ?_, ?_⟩
  · decide
  · decide
  · right; left; decide
  · decide
  · decide
  · left; decide
  · decide
  · rintro ⟨_, hg2⟩
    exact absurd hg2 (by decide)

theorem icRun_inv (ops : List ICOp) :
    ∀ c, ICInv c → ICInv (icRun c ops) := by
  induction ops with
  | nil => intro c h; exact h
  | cons op ops ih =>
    intro c h
    exact ih (icStep c op) (icStep_inv c op h)

/-- C4: for every state of the IntersectionController reachable from
start by update ticks, pedestrian requests, emergency vehicle calls, and
the firing of scheduled delayed cross-machine triggers, the north-south
and east-west machines are never both GREEN at the end of an update
tick. -/
theorem intersection_never_both_green (ops : List ICOp) (d : Nat) :
    ¬((icUpdate (icRun (icStart icNew) ops) d).northSouth.currentState =
        some "GREEN" ∧
      (icUpdate (icRun (icStart icNew) ops) d).eastWest.currentState =
        some "GREEN") := by
  have hinv := icRun_inv ops (icStart icNew) icStart_inv
  exact (icUpdate_inv d hinv).2.2.2

end TrafficFSM
